import Mathlib

/-!
Verification development for `Notas.py`, a single-file tool that

* reads every `.xlsx` spreadsheet of the working directory (header-row
  heuristic per file), rejects the run when the files disagree on the
  column count, concatenates them with `pd.concat`, and
* emits a self-contained HTML artifact embedding a fixed 6-field
  positional projection of the merged data together with a client-side
  exact-match search, and
* offers an identity lookup `buscar_por_cedula` over a loaded dataset.

The Python data values are embedded as `Value` (strings, integers and
the missing-cell marker `NaN`; floating-point cells play no role in any
property studied here and are left out of the model).  Python and
JavaScript string primitives are embedded as functions on `String`
(lists of characters), and a pandas `DataFrame` as a column-name list
plus a row list.  pandas semantics relevant here, reflected in the
definitions below:

* `pd.read_excel(path)` uses raw row 0 as the column header and the
  remaining rows as data; with `skiprows=1` everything shifts down one
  raw row; with `nrows=1` the single *data* row returned is the raw row
  following the header row.
* `astype(str)` turns every cell of a column into its `str(...)` text.
* `Series.str.contains(pat, regex=False)` is substring containment.
* `pd.concat(frames, ignore_index=True)` aligns columns *by name*: the
  result's columns are the union of the frames' column names in order
  of first appearance, and a row's missing entries are filled with NaN.
-/

namespace Notas

/-- A spreadsheet cell value as pandas holds it: a text cell, an integer
cell, or the missing-value marker NaN. -/
inductive Value where
  | vStr (s : String)
  | vInt (n : Int)
  | vNan
  deriving DecidableEq, Repr

/-- Python `str(...)` on a cell value (`str(nan) = "nan"`). -/
def valueToStr : Value → String
  | .vStr s => s
  | .vInt n => toString n
  | .vNan => "nan"

/-- Python `str.lower()` restricted to the alphabet that occurs in this
program: ASCII letters plus the accented capitals of the Spanish domain
vocabulary. -/
def lowerChar (c : Char) : Char :=
  if c = 'Á' then 'á'
  else if c = 'É' then 'é'
  else if c = 'Í' then 'í'
  else if c = 'Ó' then 'ó'
  else if c = 'Ú' then 'ú'
  else if c = 'Ü' then 'ü'
  else if c = 'Ñ' then 'ñ'
  else if 'A' ≤ c ∧ c ≤ 'Z' then Char.ofNat (c.toNat + 32)
  else c

/-- Python `str.lower()` / JavaScript `toLowerCase()` on a string. -/
def lowerStr (s : String) : String := ⟨s.data.map lowerChar⟩

/-- Is `needle` a contiguous infix of the character list?  (The empty
needle is an infix of everything, as for Python `"" in s`.) -/
def isInfixList (needle : List Char) : List Char → Bool
  | [] => needle.isEmpty
  | c :: rest => List.isPrefixOf needle (c :: rest) || isInfixList needle rest

/-- Python `pat in s` / `Series.str.contains(pat, regex=False)`:
substring containment of `needle` in `haystack`. -/
def containsSubstr (needle haystack : String) : Bool :=
  isInfixList needle.data haystack.data

/-- Python `s.replace(c, "")` for a one-character pattern: every
occurrence of the character is removed. -/
def removeChar (c : Char) (s : String) : String :=
  ⟨s.data.filter (fun a => a ≠ c)⟩

/-- `cedula.replace("-", "").replace(" ", "")` (Notas.py line 65). -/
def normalizeCedula (cedula : String) : String :=
  removeChar ' ' (removeChar '-' cedula)

end Notas

namespace Notas

/-! ### Dataset model and the loading heuristic -/

/-- A pandas `DataFrame`: ordered column names (pandas keeps non-string
headers, e.g. numbers, as non-string labels, hence `Value`) and ordered
rows.  pandas guarantees rows rectangular with the column count; the
model keeps that as a side condition where needed. -/
structure DataFrame where
  cols : List Value
  rows : List (List Value)
  deriving DecidableEq, Repr

/-- `palabras_encabezado` (Notas.py lines 28-34 and 601-607). -/
def palabras_encabezado : List String :=
  ["columna", "atinencia", "nombre", "modulos", "módulos"]

/-- `" ".join(str(valor).lower() for valor in fila)` (lines 36-38). -/
def flattenRow (cells : List Value) : String :=
  String.intercalate " " (cells.map (fun v => lowerStr (valueToStr v)))

/-- `any(palabra in texto for palabra in palabras_encabezado)`
(lines 39-41). -/
def contieneEncabezado (texto : String) : Bool :=
  palabras_encabezado.any (fun palabra => containsSubstr palabra texto)

/-- `pd.read_excel(path, skiprows=k)` on the raw cell grid of the file:
raw row `k` becomes the column header, the rows after it the data. -/
def readExcel (skiprows : Nat) (raw : List (List Value)) : DataFrame :=
  ⟨raw.getD skiprows [], raw.drop (skiprows + 1)⟩

/-- The cell values inspected by `pd.read_excel(path, nrows=1)`
(lines 26, 600): under the default header the values of the single data
row returned are those of raw row 1 (there are none when the file has
fewer than two raw rows). -/
def primeraFilaValores (raw : List (List Value)) : List Value :=
  raw.getD 1 []

/-- The header heuristic as the code computes it (lines 26-41,
600-613): the keyword test runs over the flattened values of
`pd.read_excel(path, nrows=1)`, i.e. over raw row 1. -/
def detectHeader (raw : List (List Value)) : Bool :=
  contieneEncabezado (flattenRow (primeraFilaValores raw))

/-- Claim-stated variant of the heuristic, following the words of the
specification ("the lowercase flattened text of the file's first row's
cell values"): the keyword test on raw row 0.  Used only to compare the
specification against `detectHeader`. -/
def detectHeaderClaim (raw : List (List Value)) : Bool :=
  contieneEncabezado (flattenRow (raw.getD 0 []))

/-- `cargar_datos` (lines 21-57) and the identical per-file read of
`main` (lines 600-620): keyword hit on the probed row means re-reading
with `skiprows=1`, otherwise a plain read. -/
def cargar_datos (raw : List (List Value)) : DataFrame :=
  if detectHeader raw then readExcel 1 raw else readExcel 0 raw

end Notas

namespace Notas

/-! ### The identity lookup `buscar_por_cedula` (lines 63-104) -/

/-- The keyword list of the candidate-column scan (lines 71-78). -/
def palabrasCedula : List String :=
  ["cedula", "cédula", "identificacion", "identificación", "dni", "id"]

/-- `any(palabra in col.lower() for palabra in [...])` (lines 69-79)
for a string column name. -/
def isCandidateName (s : String) : Bool :=
  palabrasCedula.any (fun palabra => containsSubstr palabra (lowerStr s))

/-- Candidate test on a column label, `false` on non-string labels
(those raise before this test is reached; see `collectCandidatesGo`). -/
def isCandidateVal : Value → Bool
  | .vStr s => isCandidateName s
  | _ => false

/-- Is a column label a string?  `col.lower()` raises on any other
label. -/
def isStrVal : Value → Bool
  | .vStr _ => true
  | _ => false

/-- The candidate-collection loop (lines 67-80), indices starting at
`n`: appends the index of every column whose lowercased name contains a
keyword, and raises `AttributeError` at a non-string column label
(Python `col.lower()` on e.g. an `int` header). -/
def collectCandidatesGo : Nat → List Value → Except String (List Nat)
  | _, [] => .ok []
  | n, .vStr s :: rest =>
    match collectCandidatesGo (n + 1) rest with
    | .error e => .error e
    | .ok l => .ok (if isCandidateName s then n :: l else l)
  | _, _ :: _ => .error "AttributeError"

/-- Candidate column indices of a column-label list, in column order. -/
def collectCandidates (cols : List Value) : Except String (List Nat) :=
  collectCandidatesGo 0 cols

/-- `str(...)` of the cell of a row at column index `j`. -/
def cellText (r : List Value) (j : Nat) : String :=
  valueToStr (r.getD j .vNan)

/-- One cell of the in-place `astype(str)` coercion of column `j`. -/
def coerceRowAt (j : Nat) (r : List Value) : List Value :=
  r.set j (.vStr (cellText r j))

/-- `self.datos[columna] = self.datos[columna].astype(str)` (line 86):
column `j` of every row is replaced by its text form. -/
def coerceColAt (j : Nat) (rows : List (List Value)) : List (List Value) :=
  rows.map (coerceRowAt j)

/-- Does the row's cell at column `j` contain the normalized query
(line 88-92, `str.contains(..., regex=False)`)? -/
def rowMatches (q : String) (j : Nat) (r : List Value) : Bool :=
  containsSubstr q (cellText r j)

/-- Does any row of the dataset match in column `j`? -/
def colMatches (q : String) (rows : List (List Value)) (j : Nat) : Bool :=
  rows.any (rowMatches q j)

/-- The column scan of `buscar_por_cedula` (lines 85-100): for each
candidate column in order, coerce the column to text in place, then
return the first matching row of that column if there is one; the scan
state (the mutated rows) is threaded through. -/
def scanColumns (q : String) : List Nat → List (List Value) →
    Option (List Value) × List (List Value)
  | [], rows => (none, rows)
  | j :: js, rows =>
    let rows' := coerceColAt j rows
    match rows'.find? (rowMatches q j) with
    | some r => (some r, rows')
    | none => scanColumns q js rows'

/-- The body of the `try` block of `buscar_por_cedula` (lines 64-100):
normalize the query, collect candidate columns (an exception surfaces
as `.error`), fall back to every column when none matched, scan. -/
def buscarInner (df : DataFrame) (cedula : String) :
    Except String (Option (List Value) × DataFrame) :=
  let q := normalizeCedula cedula
  match collectCandidates df.cols with
  | .error e => .error e
  | .ok cands =>
    let idxs := if cands.isEmpty then List.range df.cols.length else cands
    let res := scanColumns q idxs df.rows
    .ok (res.1, ⟨df.cols, res.2⟩)

/-- `buscar_por_cedula` (lines 63-104): the `except` clause swallows
any exception and reports `None`, with the dataset untouched (the only
modeled exception precedes the first mutation). -/
def buscar_por_cedula (df : DataFrame) (cedula : String) :
    Option (List Value) × DataFrame :=
  match buscarInner df cedula with
  | .ok r => r
  | .error _ => (none, df)

/-- The candidate column indices in column order, as a direct filter:
the characterization the claims quantify over. -/
def candidateIdxs (cols : List Value) : List Nat :=
  (List.range cols.length).filter (fun i => isCandidateVal (cols.getD i .vNan))

/-- The column indices the lookup actually scans: the candidates, or
every column when no name matched (lines 82-83). -/
def searchIdxs (cols : List Value) : List Nat :=
  if (candidateIdxs cols).isEmpty then List.range cols.length
  else candidateIdxs cols

/-- The columns coerced by the time the scan stops at column `j`:
the scanned prefix of the index list up to and including `j`. -/
def scannedUpTo (idxs : List Nat) (j : Nat) : List Nat :=
  idxs.takeWhile (fun x => x ≠ j) ++ [j]

/-- Text coercion of one row at each index of `js`, left to right. -/
def coerceRowCols (js : List Nat) (r : List Value) : List Value :=
  js.foldl (fun acc j => coerceRowAt j acc) r

/-- Text coercion of all rows at each index of `js`, left to right. -/
def coerceColsAll (js : List Nat) (rows : List (List Value)) :
    List (List Value) :=
  js.foldl (fun acc j => coerceColAt j acc) rows

end Notas

namespace Notas

/-! ### The fixed display projection of `generar_html5_interactivo`
(lines 173-188 and 667-682) -/

/-- `columnas_especificas`: the fixed display field labels. -/
def columnas_especificas : List String :=
  ["Cédula", "Nombre", "Módulos", "Temario",
   "Tabla de Especificaciones", "Prueba Escrita"]

/-- One display row: for each display field index `i`, the cell of the
`i`-th source column when `i < ncols` (`df_html[c] = datos.iloc[:, i]`),
else the empty string (`df_html[c] = ""`).  The source builds `df_html`
column by column; on the rectangular frames pandas produces this is the
same data row by row. -/
def displayRow (ncols : Nat) (r : List Value) : List Value :=
  (List.range columnas_especificas.length).map
    (fun i => if i < ncols then r.getD i .vNan else .vStr "")

/-- The display rows embedded (as JSON) in the generated artifact. -/
def displayRows (df : DataFrame) : List (List Value) :=
  df.rows.map (displayRow df.cols.length)

end Notas

namespace Notas

/-! ### `main` (lines 573-651): read, reconcile, concatenate, emit -/

/-- The outcome of reading one discovered `.xlsx` file: its raw cell
grid, or a read failure (the `except` of lines 625-627 skips it). -/
inductive ReadResult where
  | ok (raw : List (List Value))
  | err
  deriving DecidableEq, Repr

/-- The index of a column name in a frame's column list (first
occurrence; per-frame column names are unique in pandas frames, which
mangles duplicate headers on read). -/
def colPos : List Value → Value → Option Nat
  | [], _ => none
  | c' :: rest, c => if c' = c then some 0 else (colPos rest c).map (· + 1)

/-- The column set of `pd.concat`: the union of the frames' column
names in order of first appearance. -/
def unionCols (frames : List DataFrame) : List Value :=
  frames.foldl
    (fun acc f => acc ++ f.cols.filter (fun c => decide (c ∉ acc))) []

/-- Name-alignment of one source row onto the concatenated column set:
a column absent from the row's own frame is filled with NaN. -/
def alignRow (allCols : List Value) (cols : List Value) (r : List Value) :
    List Value :=
  allCols.map (fun c =>
    match colPos cols c with
    | some i => r.getD i .vNan
    | none => .vNan)

/-- `pd.concat(dataframes, ignore_index=True)` (line 643): rows in
source order then intra-source row order, columns aligned by name. -/
def pdConcat (frames : List DataFrame) : DataFrame :=
  let allCols := unionCols frames
  ⟨allCols, frames.flatMap (fun f => f.rows.map (alignRow allCols f.cols))⟩

/-- The per-file loading loop of `main` (lines 594-627): read failures
are skipped, each surviving file is parsed with the header heuristic. -/
def leerDataframes (files : List (String × ReadResult)) : List DataFrame :=
  files.filterMap (fun p =>
    match p.2 with
    | .ok raw => some (cargar_datos raw)
    | .err => none)

/-- How a run of `main` ended. -/
inductive RunStatus where
  | noFiles
  | noValidSources
  | schemaMismatch (diag : List (String × Nat))
  | success
  deriving DecidableEq, Repr

/-- The observable outcome of a run of `main`: its status (carrying the
column-count diagnostic of lines 637-639 when the schemas disagree),
the display rows of the written artifact when one is written, and the
process exit status.  `main` ends every failure path with a plain
`return` and the program never calls `sys.exit`, so absent an
exception the interpreter exits with status 0 on every path. -/
structure RunOutcome where
  status : RunStatus
  output : Option (List (List Value))
  exitCode : Nat
  deriving DecidableEq, Repr

/-- `main` (lines 573-651): no files found → return; all reads failed →
return; at least two distinct column counts among the read frames →
print the `zip(archivos_excel, columnas_por_archivo)` diagnostic (note:
the file-name list of *all* discovered files, zipped positionally with
the column counts of the *successfully read* frames) and return;
otherwise concatenate and write the artifact. -/
def runMain (files : List (String × ReadResult)) : RunOutcome :=
  if files.isEmpty then ⟨.noFiles, none, 0⟩
  else if (leerDataframes files).isEmpty then ⟨.noValidSources, none, 0⟩
  else if 1 <
      ((leerDataframes files).map (fun df => df.cols.length)).dedup.length
    then
    ⟨.schemaMismatch
      ((files.map Prod.fst).zip
        ((leerDataframes files).map (fun df => df.cols.length))),
     none, 0⟩
  else ⟨.success, some (displayRows (pdConcat (leerDataframes files))), 0⟩

end Notas

namespace Notas

/-! ### The client-side search of the generated artifact
(lines 999-1041 of the embedded JavaScript) -/

/-- One character of the JavaScript digit filter
`value.replace(/[^0-9]/g, '')`: the class 0-9. -/
def jsIsDigit (c : Char) : Bool :=
  decide ('0' ≤ c ∧ c ≤ '9')

/-- The `input` handler (lines 1035-1041): every non-digit character of
the typed value is discarded, so the search box always holds a
digits-only string. -/
def jsDigitsOnly (s : String) : String :=
  ⟨s.data.filter jsIsDigit⟩

/-- A JavaScript whitespace character as far as `trim()` concerns the
strings of this artifact. -/
def isWsChar (c : Char) : Bool :=
  c == ' ' || c == '\t' || c == '\n' || c == '\r'

/-- JavaScript `String.prototype.trim()`. -/
def jsTrim (s : String) : String :=
  ⟨((s.data.dropWhile isWsChar).reverse.dropWhile isWsChar).reverse⟩

/-- `String(row['Cédula'] || '')` (line 1006): the embedded JSON holds
a string, a number, or `null` (pandas serializes NaN as `null`).  The
`||` evaluates first: `null`, the empty string *and the number 0* are
falsy in JavaScript and give `''`; any other value is rendered by
`String` (so a numeric-zero Cédula coerces to the empty string and can
never be selected by a non-empty query). -/
def jsCedulaText : Value → String
  | .vStr s => s
  | .vInt 0 => ""
  | .vInt n => toString n
  | .vNan => ""

/-- The `Cédula` field of an embedded display row: the first of the six
projected fields. -/
def clientCedula (r : List Value) : String :=
  jsCedulaText (r.getD 0 .vNan)

/-- Which message/table the artifact shows after a render
(lines 960-997): the placeholder when nothing is shown and the box is
blank, the no-results message when nothing is shown for a non-blank
box, else the table. -/
inductive ClientState where
  | initial
  | noResults
  | table
  deriving DecidableEq, Repr

/-- `renderTable` state selection (lines 974-981). -/
def renderState (shown : List (List Value)) (boxValue : String) :
    ClientState :=
  if shown.length = 0 then
    if jsTrim boxValue = "" then .initial else .noResults
  else .table

/-- `searchTable` (lines 999-1012): lowercase and trim the box value;
an empty term shows nothing, otherwise keep exactly the rows whose
`Cédula` text equals the term case-insensitively. -/
def searchTable (rows : List (List Value)) (boxValue : String) :
    List (List Value) :=
  let searchTerm := jsTrim (lowerStr boxValue)
  if searchTerm = "" then []
  else rows.filter (fun r => lowerStr (clientCedula r) == searchTerm)

/-- One full client interaction on a typed value: the `input` handler
reduces it to digits, `searchTable` filters, `renderTable` picks the
state. -/
def clientSearch (rows : List (List Value)) (typed : String) :
    List (List Value) × ClientState :=
  let box := jsDigitsOnly typed
  let shown := searchTable rows box
  (shown, renderState shown box)

end Notas

namespace Notas

/-! ### Helper lemmas: the text coercion is invisible to the scan -/

theorem valueToStr_vStr (s : String) : valueToStr (.vStr s) = s := rfl

/-- Coercing a cell to text never changes any cell's text. -/
theorem cellText_coerceRowAt (j j' : Nat) (r : List Value) :
    cellText (coerceRowAt j r) j' = cellText r j' := by
  unfold cellText coerceRowAt
  rcases eq_or_ne j j' with h | h
  · subst h
    rcases Nat.lt_or_ge j r.length with hj | hj
    · simp [List.getD_eq_getElem?_getD, List.getElem?_set_self hj,
        List.getElem?_eq_getElem hj, cellText, valueToStr]
    · simp [List.set_eq_of_length_le hj]
  · simp [List.getD_eq_getElem?_getD, List.getElem?_set_ne h]

theorem rowMatches_coerceRowAt (q : String) (j j' : Nat) (r : List Value) :
    rowMatches q j' (coerceRowAt j r) = rowMatches q j' r := by
  unfold rowMatches
  rw [cellText_coerceRowAt]

theorem rowMatches_comp_coerceRowAt (q : String) (j j' : Nat) :
    (rowMatches q j' ∘ coerceRowAt j) = rowMatches q j' :=
  funext (rowMatches_coerceRowAt q j j')

theorem colMatches_coerceColAt (q : String) (j j' : Nat)
    (rows : List (List Value)) :
    colMatches q (coerceColAt j rows) j' = colMatches q rows j' := by
  unfold colMatches coerceColAt
  rw [List.any_map, rowMatches_comp_coerceRowAt]

theorem find?_coerceColAt (q : String) (j j' : Nat)
    (rows : List (List Value)) :
    (coerceColAt j rows).find? (rowMatches q j') =
      (rows.find? (rowMatches q j')).map (coerceRowAt j) := by
  unfold coerceColAt
  rw [List.find?_map, rowMatches_comp_coerceRowAt]

end Notas

namespace Notas

theorem coerceRowCols_cons (j : Nat) (js : List Nat) (r : List Value) :
    coerceRowCols (j :: js) r = coerceRowCols js (coerceRowAt j r) := rfl

theorem coerceColsAll_cons (j : Nat) (js : List Nat)
    (rows : List (List Value)) :
    coerceColsAll (j :: js) rows = coerceColsAll js (coerceColAt j rows) := rfl

theorem colMatches_fun_coerceColAt (q : String) (j : Nat)
    (rows : List (List Value)) :
    colMatches q (coerceColAt j rows) = colMatches q rows :=
  funext (colMatches_coerceColAt q j · rows)

/-- What the column scan of `buscar_por_cedula` computes: the first
scanned column `j` with any textual match decides the result (the first
matching row of that column, in the mutation state reached there), and
the returned dataset rows carry the `astype(str)` coercion of exactly
the scanned columns. -/
theorem scanColumns_spec (q : String) (idxs : List Nat)
    (rows : List (List Value)) :
    scanColumns q idxs rows =
      match idxs.find? (colMatches q rows) with
      | none => (none, coerceColsAll idxs rows)
      | some j =>
        ((rows.find? (rowMatches q j)).map
           (coerceRowCols (scannedUpTo idxs j)),
         coerceColsAll (scannedUpTo idxs j) rows) := by
  induction idxs generalizing rows with
  | nil => simp [scanColumns, coerceColsAll]
  | cons j js ih =>
    by_cases h : colMatches q rows j
    · have hfind : rows.find? (rowMatches q j) ≠ none := by
        simp only [colMatches, List.any_eq_true] at h
        simp only [ne_eq, List.find?_eq_none, not_forall]
        obtain ⟨r, hr, hm⟩ := h
        exact ⟨r, hr, by simp [hm]⟩
      obtain ⟨r, hr⟩ := Option.ne_none_iff_exists'.mp hfind
      have hpre : scannedUpTo (j :: js) j = [j] := by
        simp [scannedUpTo, List.takeWhile_cons]
      rw [List.find?_cons_of_pos _ h]
      simp only [hpre]
      show (match (coerceColAt j rows).find? (rowMatches q j) with
            | some r => (some r, coerceColAt j rows)
            | none => scanColumns q js (coerceColAt j rows)) = _
      rw [find?_coerceColAt, hr]
      simp [coerceRowCols, coerceColsAll]
    · have hb : colMatches q rows j = false := by simpa using h
      have hfind : rows.find? (rowMatches q j) = none := by
        simp only [colMatches, List.any_eq_true] at h
        simp only [List.find?_eq_none]
        intro r hr hm
        exact h ⟨r, hr, hm⟩
      rw [List.find?_cons_of_neg _ (by simp [hb])]
      show (match (coerceColAt j rows).find? (rowMatches q j) with
            | some r => (some r, coerceColAt j rows)
            | none => scanColumns q js (coerceColAt j rows)) = _
      rw [find?_coerceColAt, hfind]
      simp only [Option.map_none']
      rw [ih (coerceColAt j rows), colMatches_fun_coerceColAt]
      cases hjs : js.find? (colMatches q rows) with
      | none => simp [coerceColsAll_cons]
      | some j' =>
        have hj' : colMatches q rows j' = true := List.find?_some hjs
        have hne : j ≠ j' := fun he => by rw [he, hj'] at hb; cases hb
        have hpre : scannedUpTo (j :: js) j' = j :: scannedUpTo js j' := by
          simp [scannedUpTo, List.takeWhile_cons, hne]
        show (Option.map (coerceRowCols (scannedUpTo js j'))
                (List.find? (rowMatches q j') (coerceColAt j rows)),
              coerceColsAll (scannedUpTo js j') (coerceColAt j rows)) =
             (Option.map (coerceRowCols (scannedUpTo (j :: js) j'))
                (List.find? (rowMatches q j') rows),
              coerceColsAll (scannedUpTo (j :: js) j') rows)
        rw [find?_coerceColAt, hpre, Option.map_map,
          show (coerceRowCols (scannedUpTo js j') ∘ coerceRowAt j) =
            coerceRowCols (j :: scannedUpTo js j') from funext fun r => rfl,
          show coerceColsAll (j :: scannedUpTo js j') rows =
            coerceColsAll (scannedUpTo js j') (coerceColAt j rows) from rfl]

end Notas

namespace Notas

/-- On string-labelled columns the collection loop succeeds and returns
the indices (shifted by the start offset) of exactly the columns whose
lowercased name contains a keyword. -/
theorem collectCandidatesGo_ok (cols : List Value) :
    ∀ n : Nat, cols.all isStrVal = true →
    collectCandidatesGo n cols =
      .ok (((List.range cols.length).filter
        (fun i => isCandidateVal (cols.getD i .vNan))).map (· + n)) := by
  induction cols with
  | nil => intro n _; simp [collectCandidatesGo]
  | cons c rest ih =>
    intro n h
    rw [List.all_cons] at h
    obtain ⟨h1, h2⟩ := Bool.and_eq_true_iff.mp h
    cases c with
    | vStr s =>
      simp only [collectCandidatesGo]
      rw [ih (n + 1) h2]
      rw [List.length_cons, List.range_succ_eq_map, List.filter_cons]
      have hget0 : ((Value.vStr s :: rest).getD 0 .vNan) = .vStr s := rfl
      have hcomp :
          (fun i => isCandidateVal ((Value.vStr s :: rest).getD i .vNan)) ∘
            Nat.succ =
          (fun i => isCandidateVal (rest.getD i .vNan)) := by
        funext i; rfl
      rw [List.filter_map]
      rw [hcomp]
      have hshift : (((· + n) : Nat → Nat) ∘ Nat.succ) = (· + (n + 1)) := by
        funext i
        simp only [Function.comp]
        omega
      cases hb : isCandidateName s with
      | true =>
        simp only [hget0, isCandidateVal, hb]
        simp only [if_true]
        rw [List.map_cons, List.map_map, hshift, Nat.zero_add]
      | false =>
        simp only [hget0, isCandidateVal, hb]
        simp only [Bool.false_eq_true, if_false]
        rw [List.map_map, hshift]
    | vInt m => exact absurd h1 (by simp [isStrVal])
    | vNan => exact absurd h1 (by simp [isStrVal])

/-- On string-labelled columns `collectCandidates` computes exactly
`candidateIdxs`. -/
theorem collectCandidates_ok (cols : List Value)
    (h : cols.all isStrVal = true) :
    collectCandidates cols = .ok (candidateIdxs cols) := by
  unfold collectCandidates candidateIdxs
  rw [collectCandidatesGo_ok cols 0 h]
  congr 1
  have : ((· + 0) : Nat → Nat) = id := by funext i; simp
  rw [this, List.map_id]

end Notas

namespace Notas

/-- With string column labels the lookup is exactly the column scan
over `searchIdxs`. -/
theorem buscar_eq_scan (df : DataFrame) (cedula : String)
    (h : df.cols.all isStrVal = true) :
    buscar_por_cedula df cedula =
      ((scanColumns (normalizeCedula cedula) (searchIdxs df.cols) df.rows).1,
       ⟨df.cols,
        (scanColumns (normalizeCedula cedula) (searchIdxs df.cols)
          df.rows).2⟩) := by
  have hinner : buscarInner df cedula =
      .ok ((scanColumns (normalizeCedula cedula) (searchIdxs df.cols)
              df.rows).1,
           ⟨df.cols,
            (scanColumns (normalizeCedula cedula) (searchIdxs df.cols)
              df.rows).2⟩) := by
    unfold buscarInner
    rw [collectCandidates_ok df.cols h]
    rfl
  unfold buscar_por_cedula
  rw [hinner]

end Notas

namespace Notas

/-- **C1.**  For every merged dataset (with the string column labels
pandas normally produces) and query, `buscar_por_cedula` takes as
candidate columns exactly those whose name case-insensitively contains
one of "cedula", "cédula", "identificacion", "identificación", "dni",
"id", falling back to all columns when none match; it returns the first
record (in dataset order) matching in the first scanned column (in
column order) that yields any match, never continuing past a matching
column, and returns `none` when no scanned column yields a match.  (The
returned record carries the text coercion of the scanned columns; see
the C8 theorems.) -/
theorem c1_buscar_por_cedula_spec (df : DataFrame) (cedula : String)
    (h : df.cols.all isStrVal = true) :
    collectCandidates df.cols = .ok (candidateIdxs df.cols) ∧
    (∀ i : Nat, ∀ s : String, df.cols.getD i .vNan = .vStr s →
      (i ∈ candidateIdxs df.cols ↔
        i < df.cols.length ∧
          palabrasCedula.any
            (fun palabra => containsSubstr palabra (lowerStr s)) = true)) ∧
    searchIdxs df.cols =
      (if (candidateIdxs df.cols).isEmpty then List.range df.cols.length
       else candidateIdxs df.cols) ∧
    (match (searchIdxs df.cols).find?
        (colMatches (normalizeCedula cedula) df.rows) with
     | none => (buscar_por_cedula df cedula).1 = none
     | some j => (buscar_por_cedula df cedula).1 =
         (df.rows.find? (rowMatches (normalizeCedula cedula) j)).map
           (coerceRowCols
             (scannedUpTo (searchIdxs df.cols) j))) := by
  refine ⟨collectCandidates_ok df.cols h, ?_, rfl, ?_⟩
  · intro i s hm
    rw [List.getD_eq_getElem?_getD] at hm
    simp [candidateIdxs, List.mem_filter, List.mem_range, hm,
      isCandidateVal, isCandidateName, and_comm]
  · rw [buscar_eq_scan df cedula h, scanColumns_spec]
    cases hf : (searchIdxs df.cols).find?
        (colMatches (normalizeCedula cedula) df.rows) with
    | none => rfl
    | some j => rfl

/-- Witness for C1 at a concrete dataset: one string column named
"cedula" holding "123", queried with "123". -/
theorem c1_witness :
    (([Value.vStr "cedula"] : List Value).all isStrVal = true) ∧
    (buscar_por_cedula ⟨[.vStr "cedula"], [[.vStr "123"]]⟩ "123").1 =
      some [Value.vStr "123"] := by
  have h := c1_buscar_por_cedula_spec
    ⟨[.vStr "cedula"], [[.vStr "123"]]⟩ "123" (by decide)
  refine ⟨by decide, ?_⟩
  have h4 := h.2.2.2
  rw [show (searchIdxs ([Value.vStr "cedula"])).find?
      (colMatches (normalizeCedula "123")
        ([[Value.vStr "123"]] : List (List Value))) = some 0 from by decide]
    at h4
  rw [h4]
  decide

end Notas

namespace Notas

/-- **C3.**  The lookup normalizes the query by stripping exactly the
hyphen and space characters (everything else, including case, leading
zeros and other punctuation, is kept), and matching is substring
containment — not equality — of the normalized query in the cell text:
"1-234 567" normalizes to "1234567" and finds the record whose identity
cell holds "01234567". -/
theorem c3_normalize_and_substring :
    (∀ q : String, normalizeCedula q =
      ⟨q.data.filter (fun c => decide (c ≠ '-' ∧ c ≠ ' '))⟩) ∧
    normalizeCedula "1-234 567" = "1234567" ∧
    containsSubstr "1234567" "01234567" = true ∧
    decide (("1234567" : String) = "01234567") = false ∧
    (buscar_por_cedula ⟨[.vStr "cedula"], [[.vStr "01234567"]]⟩
        "1-234 567").1 = some [Value.vStr "01234567"] := by
  refine ⟨?_, by decide, by decide, by decide, by decide⟩
  intro q
  unfold normalizeCedula removeChar
  simp only [List.filter_filter]
  congr 1
  apply List.filter_congr
  intro a _
  simp [Bool.decide_and, Bool.and_comm]

end Notas

namespace Notas

/-- **C10.**  Any exception inside the lookup is swallowed by the
`except` clause and surfaces as `None`, exactly the not-found result: a
dataset with a non-string column label (where `col.lower()` raises) and
a dataset where the query genuinely misses both make
`buscar_por_cedula` report `none`, so the caller cannot tell a lookup
failure from a miss. -/
theorem c10_error_swallowed :
    (∀ (df : DataFrame) (cedula : String) (e : String),
      buscarInner df cedula = .error e →
      buscar_por_cedula df cedula = (none, df)) ∧
    buscarInner ⟨[.vInt 1], [[.vStr "5"]]⟩ "7" = .error "AttributeError" ∧
    (buscar_por_cedula ⟨[.vInt 1], [[.vStr "5"]]⟩ "7").1 = none ∧
    buscarInner ⟨[.vStr "cedula"], [[.vStr "5"]]⟩ "7" =
      .ok (none, ⟨[.vStr "cedula"], [[.vStr "5"]]⟩) ∧
    (buscar_por_cedula ⟨[.vStr "cedula"], [[.vStr "5"]]⟩ "7").1 = none := by
  refine ⟨?_, by rfl, by decide, by rfl, by decide⟩
  intro df cedula e h
  unfold buscar_por_cedula
  rw [h]

/-- Witness for C10: the exception path evaluated at the concrete
dataset with the integer column label. -/
theorem c10_witness :
    buscar_por_cedula ⟨[.vInt 1], [[.vStr "5"]]⟩ "7" =
      (none, ⟨[.vInt 1], [[.vStr "5"]]⟩) :=
  c10_error_swallowed.1 ⟨[.vInt 1], [[.vStr "5"]]⟩ "7" "AttributeError"
    (by rfl)

end Notas

namespace Notas

/-- Setting a position of a list to the element it already holds (or
any index out of range) changes nothing. -/
theorem set_own {α : Type} (l : List α) (j : Nat) (a : α)
    (h : ∀ hj : j < l.length, l.get ⟨j, hj⟩ = a) : l.set j a = l := by
  by_cases hj : j < l.length
  · apply List.ext_getElem?
    intro n
    by_cases hn : j = n
    · subst hn
      rw [List.getElem?_set_self hj, ← h hj, List.getElem?_eq_getElem hj]
      rfl
    · rw [List.getElem?_set_ne hn]
  · exact List.set_eq_of_length_le (Nat.le_of_not_lt hj)

/-- The in-place coercion keeps every cell's text. -/
theorem map_text_coerceRowAt (j : Nat) (r : List Value) :
    (coerceRowAt j r).map valueToStr = r.map valueToStr := by
  unfold coerceRowAt
  rw [List.map_set]
  apply set_own
  intro hj
  have hj' : j < r.length := by simpa using hj
  simp [cellText, List.getD_eq_getElem?_getD, List.getElem?_eq_getElem hj']
  rfl

/-- On an all-text row the coercion is the identity. -/
theorem coerceRowAt_all_str (j : Nat) (r : List Value)
    (h : ∀ v ∈ r, isStrVal v = true) : coerceRowAt j r = r := by
  unfold coerceRowAt
  apply set_own
  intro hj
  have hstr := h _ (List.get_mem r j hj)
  cases hv : r.get ⟨j, hj⟩ with
  | vStr s =>
    have hj2 : r[j] = Value.vStr s := hv
    simp [cellText, List.getD_eq_getElem?_getD, List.getElem?_eq_getElem hj,
      hj2, valueToStr]
  | vInt n => rw [hv] at hstr; exact absurd hstr (by simp [isStrVal])
  | vNan => rw [hv] at hstr; exact absurd hstr (by simp [isStrVal])

/-- The column scan returns rows with unchanged textual content. -/
theorem scanColumns_snd_text (q : String) (idxs : List Nat) :
    ∀ rows : List (List Value),
    ((scanColumns q idxs rows).2).map (List.map valueToStr) =
      rows.map (List.map valueToStr) := by
  induction idxs with
  | nil => intro rows; rfl
  | cons j js ih =>
    intro rows
    have hcol : (coerceColAt j rows).map (List.map valueToStr) =
        rows.map (List.map valueToStr) := by
      unfold coerceColAt
      rw [List.map_map]
      apply List.map_congr_left
      intro r _
      exact map_text_coerceRowAt j r
    show (match (coerceColAt j rows).find? (rowMatches q j) with
          | some r => (some r, coerceColAt j rows)
          | none => scanColumns q js (coerceColAt j rows)).2.map
            (List.map valueToStr) = _
    cases (coerceColAt j rows).find? (rowMatches q j) with
    | some r => exact hcol
    | none => rw [ih (coerceColAt j rows)]; exact hcol

/-- On an all-text dataset the column scan leaves the rows untouched. -/
theorem scanColumns_snd_all_str (q : String) (idxs : List Nat) :
    ∀ rows : List (List Value),
    (∀ r ∈ rows, ∀ v ∈ r, isStrVal v = true) →
    (scanColumns q idxs rows).2 = rows := by
  induction idxs with
  | nil => intro rows _; rfl
  | cons j js ih =>
    intro rows h
    have hcol : coerceColAt j rows = rows := by
      unfold coerceColAt
      conv_rhs => rw [← List.map_id rows]
      apply List.map_congr_left
      intro r hr
      exact coerceRowAt_all_str j r (h r hr)
    show (match (coerceColAt j rows).find? (rowMatches q j) with
          | some r => (some r, coerceColAt j rows)
          | none => scanColumns q js (coerceColAt j rows)).2 = rows
    rw [hcol]
    cases rows.find? (rowMatches q j) with
    | some r => rfl
    | none => exact ih rows h

end Notas

namespace Notas

/-- **C8 (counterexample).**  The in-place `astype(str)` coercion of the
lookup IS observable: on a dataset whose candidate column "id" holds the
integer 123, a failed lookup for "9" leaves the cell as the text "123";
the display projection (and hence the serialized artifact data, which
distinguishes the number 123 from the string "123") differs from the
projection of the untouched dataset. -/
theorem c8_counterexample_coercion_observable :
    (buscar_por_cedula ⟨[.vStr "id"], [[.vInt 123]]⟩ "9").1 = none ∧
    displayRows (buscar_por_cedula ⟨[.vStr "id"], [[.vInt 123]]⟩ "9").2 =
      [[Value.vStr "123", .vStr "", .vStr "", .vStr "", .vStr "", .vStr ""]] ∧
    displayRows ⟨[.vStr "id"], [[.vInt 123]]⟩ =
      [[Value.vInt 123, .vStr "", .vStr "", .vStr "", .vStr "", .vStr ""]] ∧
    decide
      (displayRows (buscar_por_cedula ⟨[.vStr "id"], [[.vInt 123]]⟩ "9").2 =
        displayRows ⟨[.vStr "id"], [[.vInt 123]]⟩) = false := by
  exact ⟨by rfl, by rfl, by rfl, by decide⟩

/-- **C8 (amended).**  A lookup never changes the column list, never
changes any cell's *text*, and is entirely side-effect free exactly on
datasets whose cells are already text; in general the coercion of
scanned candidate columns to text is observable by later operations
(see the counterexample). -/
theorem c8_amended_lookup_effect :
    (∀ (df : DataFrame) (cedula : String),
      (buscar_por_cedula df cedula).2.cols = df.cols) ∧
    (∀ (df : DataFrame) (cedula : String),
      (buscar_por_cedula df cedula).2.rows.map (List.map valueToStr) =
        df.rows.map (List.map valueToStr)) ∧
    (∀ (df : DataFrame) (cedula : String),
      (∀ r ∈ df.rows, ∀ v ∈ r, isStrVal v = true) →
      (buscar_por_cedula df cedula).2 = df) := by
  refine ⟨?_, ?_, ?_⟩
  · intro df cedula
    unfold buscar_por_cedula buscarInner
    cases collectCandidates df.cols with
    | error e => rfl
    | ok cands => rfl
  · intro df cedula
    unfold buscar_por_cedula buscarInner
    cases collectCandidates df.cols with
    | error e => rfl
    | ok cands => exact scanColumns_snd_text _ _ df.rows
  · intro df cedula h
    unfold buscar_por_cedula buscarInner
    cases collectCandidates df.cols with
    | error e => rfl
    | ok cands =>
      show DataFrame.mk df.cols _ = df
      rw [scanColumns_snd_all_str _ _ df.rows h]

/-- Witness for C8 (amended): an all-text dataset is untouched by a
lookup. -/
theorem c8_witness :
    (buscar_por_cedula ⟨[.vStr "cedula"], [[.vStr "11"]]⟩ "9").2 =
      ⟨[.vStr "cedula"], [[.vStr "11"]]⟩ :=
  c8_amended_lookup_effect.2.2 ⟨[.vStr "cedula"], [[.vStr "11"]]⟩ "9"
    (by decide)

end Notas

namespace Notas

/-- **C2.**  The display projection always yields rows of exactly the 6
fields Cédula, Nombre, Módulos, Temario, Tabla de Especificaciones,
Prueba Escrita; display field `i` holds the `i`-th source column's cell
when `i` is below the source column count and the empty string
otherwise; source column *names* play no role (only their count does):
8 source columns use the first 6 positional cells, 4 source columns
leave fields 5 and 6 empty. -/
theorem c2_display_projection :
    columnas_especificas =
      ["Cédula", "Nombre", "Módulos", "Temario",
       "Tabla de Especificaciones", "Prueba Escrita"] ∧
    (∀ (ncols : Nat) (r : List Value), (displayRow ncols r).length = 6) ∧
    (∀ (ncols i : Nat) (r : List Value), i < 6 →
      (displayRow ncols r).getD i .vNan =
        if i < ncols then r.getD i .vNan else .vStr "") ∧
    (∀ (cols cols' : List Value) (rows : List (List Value)),
      cols.length = cols'.length →
      displayRows ⟨cols, rows⟩ = displayRows ⟨cols', rows⟩) ∧
    displayRow 8
        [.vInt 1, .vInt 2, .vInt 3, .vInt 4, .vInt 5, .vInt 6, .vInt 7,
         .vInt 8] =
      [.vInt 1, .vInt 2, .vInt 3, .vInt 4, .vInt 5, .vInt 6] ∧
    displayRow 4 [.vInt 1, .vInt 2, .vInt 3, .vInt 4] =
      [.vInt 1, .vInt 2, .vInt 3, .vInt 4, .vStr "", .vStr ""] ∧
    (∀ df : DataFrame,
      displayRows df = df.rows.map (displayRow df.cols.length)) := by
  refine ⟨rfl, ?_, ?_, ?_, by rfl, by rfl, fun _ => rfl⟩
  · intro ncols r
    simp [displayRow, columnas_especificas]
  · intro ncols i r hi
    have hlen : i < (List.range columnas_especificas.length).length := by
      simpa [columnas_especificas] using hi
    simp [displayRow, List.getD_eq_getElem?_getD, List.getElem?_map,
      List.getElem?_range (by simpa [columnas_especificas] using hi :
        i < columnas_especificas.length)]
  · intro cols cols' rows h
    show rows.map (displayRow cols.length) = rows.map (displayRow cols'.length)
    rw [h]

/-- Witness for C2 at concrete inputs: field 2 of a 2-column record,
and name-independence of the projection. -/
theorem c2_witness :
    ((1 : Nat) < 6 ∧
      (displayRow 2 [Value.vInt 7, Value.vInt 8]).getD 1 .vNan =
        Value.vInt 8) ∧
    (([Value.vStr "a"] : List Value).length = [Value.vStr "b"].length ∧
      displayRows ⟨[.vStr "a"], [[.vInt 5]]⟩ =
        displayRows ⟨[.vStr "b"], [[.vInt 5]]⟩) := by
  refine ⟨⟨by decide, ?_⟩, ⟨by decide, ?_⟩⟩
  · exact (c2_display_projection.2.2.1 2 1 [Value.vInt 7, Value.vInt 8]
      (by decide)).trans (by decide)
  · exact c2_display_projection.2.2.2.1 [Value.vStr "a"] [Value.vStr "b"]
      [[Value.vInt 5]] (by decide)

end Notas

namespace Notas

/-- **C5 (counterexample).**  The claim-stated heuristic ("keyword in
the first row's cell values") disagrees with the code: with raw rows
[["nombre"], ["x"], ["y"]] the claim predicts detection (keyword in raw
row 0), but the code probes the values of `pd.read_excel(..., nrows=1)`
— raw row 1 — and does not detect; and when the code does detect
(keyword in raw row 1), the resulting dataset's first row is raw row 2,
not raw row 1, because `skiprows=1` makes raw row 1 the header. -/
theorem c5_counterexample_header_probe_row :
    detectHeaderClaim [[Value.vStr "nombre"], [.vStr "x"], [.vStr "y"]] =
      true ∧
    detectHeader [[Value.vStr "nombre"], [.vStr "x"], [.vStr "y"]] = false ∧
    cargar_datos [[Value.vStr "nombre"], [.vStr "x"], [.vStr "y"]] =
      ⟨[.vStr "nombre"], [[.vStr "x"], [.vStr "y"]]⟩ ∧
    detectHeader [[Value.vStr "titulo"], [.vStr "nombre"], [.vStr "d1"]] =
      true ∧
    (cargar_datos
        [[Value.vStr "titulo"], [.vStr "nombre"], [.vStr "d1"]]).rows =
      [[Value.vStr "d1"]] ∧
    decide ((cargar_datos
        [[Value.vStr "titulo"], [.vStr "nombre"], [.vStr "d1"]]).rows =
      [[Value.vStr "nombre"]]) = false := by
  exact ⟨by decide, by decide, by decide, by decide, by decide, by decide⟩

/-- **C5 (amended).**  The heuristic returns true exactly when the
lowercase flattened cell text of the *second* raw row (the single data
row a default-header probe read returns) contains one of "columna",
"atinencia", "nombre", "modulos", "módulos"; when true the file is
re-read skipping one row, so the second raw row becomes the header and
the dataset's row 0 is the *third* raw row; when false the first raw
row is the header and the dataset's row 0 is the second raw row. -/
theorem c5_amended_header_heuristic :
    (∀ raw : List (List Value),
      detectHeader raw = contieneEncabezado (flattenRow (raw.getD 1 []))) ∧
    (∀ raw : List (List Value), detectHeader raw = true →
      cargar_datos raw = ⟨raw.getD 1 [], raw.drop 2⟩) ∧
    (∀ raw : List (List Value), detectHeader raw = false →
      cargar_datos raw = ⟨raw.getD 0 [], raw.drop 1⟩) := by
  refine ⟨fun raw => rfl, ?_, ?_⟩
  · intro raw h
    unfold cargar_datos
    rw [h]
    rfl
  · intro raw h
    unfold cargar_datos
    rw [h]
    rfl

/-- Witness for C5 (amended): a file whose second raw row carries a
keyword is loaded with that row as header and the third raw row as the
single data row. -/
theorem c5_witness :
    detectHeader [[Value.vStr "titulo"], [.vStr "nombre"], [.vStr "d1"]] =
      true ∧
    cargar_datos [[Value.vStr "titulo"], [.vStr "nombre"], [.vStr "d1"]] =
      ⟨[Value.vStr "nombre"], [[Value.vStr "d1"]]⟩ := by
  refine ⟨by decide, ?_⟩
  exact (c5_amended_header_heuristic.2.1 _ (by decide)).trans (by decide)

end Notas

namespace Notas

/-- Once the accumulated column set already is `cols`, further frames
with the same columns add nothing to the union. -/
theorem unionFoldl_same (cols : List Value) :
    ∀ fs : List DataFrame, (∀ f ∈ fs, f.cols = cols) →
    List.foldl
      (fun acc f => acc ++ f.cols.filter (fun c => decide (c ∉ acc)))
      cols fs = cols := by
  intro fs
  induction fs with
  | nil => intro _; rfl
  | cons f fs ih =>
    intro h
    have hf : f.cols = cols := h f (List.mem_cons_self f fs)
    have hstep : cols ++ f.cols.filter (fun c => decide (c ∉ cols)) = cols := by
      rw [hf]
      have : cols.filter (fun c => decide (c ∉ cols)) = [] := by
        rw [List.filter_eq_nil_iff]
        intro a ha
        simp [ha]
      rw [this, List.append_nil]
    show List.foldl _ (cols ++ f.cols.filter (fun c => decide (c ∉ cols)))
      fs = cols
    rw [hstep]
    exact ih (fun g hg => h g (List.mem_cons_of_mem f hg))

/-- When every frame carries the same column list, the union is that
list. -/
theorem unionCols_same (cols : List Value) (frames : List DataFrame)
    (hne : frames ≠ []) (h : ∀ f ∈ frames, f.cols = cols) :
    unionCols frames = cols := by
  cases frames with
  | nil => exact absurd rfl hne
  | cons f fs =>
    have hf : f.cols = cols := h f (List.mem_cons_self f fs)
    unfold unionCols
    show List.foldl _ ([] ++ f.cols.filter (fun c => decide (c ∉ ([] : List Value)))) fs = cols
    have hstep : ([] : List Value) ++
        f.cols.filter (fun c => decide (c ∉ ([] : List Value))) = cols := by
      rw [List.nil_append, hf]
      have : (fun c => decide (c ∉ ([] : List Value))) = fun _ : Value => true := by
        funext c
        simp
      rw [this, List.filter_true]
    rw [hstep]
    exact unionFoldl_same cols fs (fun g hg => h g (List.mem_cons_of_mem f hg))

/-- In a duplicate-free column list every column name resolves to its
own index. -/
theorem colPos_self (cols : List Value) (h : cols.Nodup) :
    ∀ (i : Nat) (hi : i < cols.length),
    colPos cols (cols.get ⟨i, hi⟩) = some i := by
  induction cols with
  | nil => intro i hi; cases hi
  | cons c rest ih =>
    intro i hi
    rw [List.nodup_cons] at h
    cases i with
    | zero => simp [colPos]
    | succ n =>
      have hn : n < rest.length := Nat.lt_of_succ_lt_succ hi
      have hmem : rest.get ⟨n, hn⟩ ∈ rest := List.get_mem rest n hn
      have hne : c ≠ rest.get ⟨n, hn⟩ := fun he => h.1 (he ▸ hmem)
      show colPos (c :: rest) (rest.get ⟨n, hn⟩) = some (n + 1)
      unfold colPos
      rw [if_neg hne, ih h.2 n hn]
      rfl

/-- Aligning a rectangular row onto its own duplicate-free column list
is the identity. -/
theorem alignRow_self (cols r : List Value) (hnd : cols.Nodup)
    (hlen : r.length = cols.length) : alignRow cols cols r = r := by
  apply List.ext_getElem
  · simp [alignRow, hlen]
  · intro i h1 h2
    have hic : i < cols.length := by simpa [alignRow] using h1
    have hir : i < r.length := h2
    simp only [alignRow, List.getElem_map]
    rw [show cols[i] = cols.get ⟨i, hic⟩ from rfl, colPos_self cols hnd i hic]
    simp [List.getD_eq_getElem?_getD, List.getElem?_eq_getElem hir]

end Notas

namespace Notas

/-- **C6 (counterexample).**  With two accepted one-column sources of
*different* column names ("a" and "b"), `pd.concat` does not produce
the pure positional concatenation of the source rows: it aligns by
column name, yielding a two-column frame with NaN padding. -/
theorem c6_counterexample_concat_not_positional :
    ([Value.vStr "a"] : List Value).length =
      ([Value.vStr "b"] : List Value).length ∧
    pdConcat [⟨[.vStr "a"], [[.vInt 1]]⟩, ⟨[.vStr "b"], [[.vInt 2]]⟩] =
      ⟨[.vStr "a", .vStr "b"],
       [[.vInt 1, .vNan], [.vNan, .vInt 2]]⟩ ∧
    ([[Value.vInt 1]] : List (List Value)) ++ [[Value.vInt 2]] =
      [[Value.vInt 1], [Value.vInt 2]] ∧
    decide
      ((pdConcat [⟨[.vStr "a"], [[.vInt 1]]⟩,
          ⟨[.vStr "b"], [[.vInt 2]]⟩]).rows =
        ([[Value.vInt 1]] : List (List Value)) ++ [[Value.vInt 2]]) =
      false := by
  exact ⟨by decide, by rfl, by rfl, by decide⟩

/-- **C6 (amended).**  The merge concatenates in source order then
intra-source row order, its row count is the sum of the per-source row
counts, and nothing is deduplicated or sorted; but the underlying
`pd.concat` aligns columns by *name* (union of the names in order of
first appearance, missing cells NaN), so the merge is the literal
positional concatenation of the source rows exactly when all sources
share one identical duplicate-free column-name list. -/
theorem c6_amended_concat :
    (∀ frames : List DataFrame,
      (pdConcat frames).rows.length =
        (frames.map (fun f => f.rows.length)).sum) ∧
    (∀ frames : List DataFrame,
      (pdConcat frames).rows =
        frames.flatMap
          (fun f => f.rows.map (alignRow (unionCols frames) f.cols))) ∧
    (∀ (cols : List Value) (frames : List DataFrame),
      frames ≠ [] → cols.Nodup →
      (∀ f ∈ frames, f.cols = cols) →
      (∀ f ∈ frames, ∀ r ∈ f.rows, r.length = cols.length) →
      pdConcat frames = ⟨cols, frames.flatMap (fun f => f.rows)⟩) := by
  refine ⟨?_, fun _ => rfl, ?_⟩
  · intro frames
    show (frames.flatMap
      (fun f => f.rows.map (alignRow (unionCols frames) f.cols))).length = _
    rw [List.length_flatMap]
    congr 1
    apply List.map_congr_left
    intro f _
    simp
  · intro cols frames hne hnd hcols hrect
    have hu : unionCols frames = cols := unionCols_same cols frames hne hcols
    show DataFrame.mk (unionCols frames)
      (frames.flatMap
        (fun f => f.rows.map (alignRow (unionCols frames) f.cols))) = _
    rw [hu]
    congr 1
    apply List.flatMap_congr
    intro f hf
    have hfc : f.cols = cols := hcols f hf
    conv_rhs => rw [← List.map_id f.rows]
    apply List.map_congr_left
    intro r hr
    rw [hfc]
    exact alignRow_self cols r hnd (hrect f hf r hr)

end Notas

namespace Notas

theorem jsIsDigit_bounds {c : Char} (h : jsIsDigit c = true) :
    '0' ≤ c ∧ c ≤ '9' := by
  simpa [jsIsDigit] using h

/-- Lowercasing is the identity on digits. -/
theorem lowerChar_digit {c : Char} (h : jsIsDigit c = true) :
    lowerChar c = c := by
  obtain ⟨h1, h2⟩ := jsIsDigit_bounds h
  unfold lowerChar
  rw [if_neg (fun he => absurd (he ▸ h2) (by decide)),
    if_neg (fun he => absurd (he ▸ h2) (by decide)),
    if_neg (fun he => absurd (he ▸ h2) (by decide)),
    if_neg (fun he => absurd (he ▸ h2) (by decide)),
    if_neg (fun he => absurd (he ▸ h2) (by decide)),
    if_neg (fun he => absurd (he ▸ h2) (by decide)),
    if_neg (fun he => absurd (he ▸ h2) (by decide)),
    if_neg (fun hu => absurd (le_trans hu.1 h2) (by decide))]

/-- A digit is not whitespace. -/
theorem isWsChar_digit {c : Char} (h : jsIsDigit c = true) :
    isWsChar c = false := by
  obtain ⟨h1, h2⟩ := jsIsDigit_bounds h
  unfold isWsChar
  have hne : ∀ w : Char, w < '0' → (c == w) = false := by
    intro w hw
    rw [beq_eq_false_iff_ne]
    intro he
    exact absurd (he ▸ h1) (not_le.mpr hw)
  rw [hne ' ' (by decide), hne '\t' (by decide), hne '\n' (by decide),
    hne '\r' (by decide)]
  rfl

theorem dropWhile_no_ws (l : List Char)
    (h : ∀ c ∈ l, isWsChar c = false) : l.dropWhile isWsChar = l := by
  cases l with
  | nil => rfl
  | cons a l =>
    exact List.dropWhile_cons_of_neg
      (by rw [h a (List.mem_cons_self a l)]; exact Bool.false_ne_true)

/-- The digit filter yields a digits-only string. -/
theorem jsDigitsOnly_all (typed : String) :
    (jsDigitsOnly typed).data.all jsIsDigit = true := by
  rw [List.all_eq_true]
  intro c hc
  exact (List.mem_filter.mp hc).2

/-- Lowercasing is the identity on digit strings. -/
theorem lowerStr_digits (s : String) (h : s.data.all jsIsDigit = true) :
    lowerStr s = s := by
  unfold lowerStr
  cases s with
  | mk data =>
    show String.mk (data.map lowerChar) = String.mk data
    congr 1
    conv_rhs => rw [← List.map_id data]
    apply List.map_congr_left
    intro c hc
    exact lowerChar_digit (List.all_eq_true.mp h c hc)

/-- Trimming is the identity on digit strings. -/
theorem jsTrim_digits (s : String) (h : s.data.all jsIsDigit = true) :
    jsTrim s = s := by
  unfold jsTrim
  have h1 : ∀ c ∈ s.data, isWsChar c = false := fun c hc =>
    isWsChar_digit (List.all_eq_true.mp h c hc)
  rw [dropWhile_no_ws _ h1,
    dropWhile_no_ws _ (fun c hc => h1 c (List.mem_reverse.mp hc)),
    List.reverse_reverse]

end Notas

namespace Notas

/-- **C7.**  In the artifact's client-side search, the typed query is
reduced to digits as typed; a non-empty query selects exactly the
embedded rows whose Cédula field text equals the query
case-insensitively (exact equality, not containment: "1234567" does not
select a row whose Cédula is "01234567"); an empty query shows zero
rows in the distinct "enter a query" placeholder state, not the
no-results state. -/
theorem c7_client_exact_search :
    (∀ typed : String, (jsDigitsOnly typed).data.all jsIsDigit = true) ∧
    (∀ (rows : List (List Value)) (typed : String),
      jsDigitsOnly typed = "" →
      clientSearch rows typed = ([], .initial)) ∧
    (∀ (rows : List (List Value)) (typed : String),
      jsDigitsOnly typed ≠ "" →
      (clientSearch rows typed).1 =
        rows.filter
          (fun r => lowerStr (clientCedula r) == jsDigitsOnly typed)) ∧
    clientSearch
        [[Value.vStr "01234567", .vStr "N", .vStr "", .vStr "", .vStr "",
          .vStr ""]] "1234567" = ([], .noResults) ∧
    clientSearch
        [[Value.vStr "01234567", .vStr "N", .vStr "", .vStr "", .vStr "",
          .vStr ""]] "0-1234567 " =
      ([[Value.vStr "01234567", .vStr "N", .vStr "", .vStr "", .vStr "",
         .vStr ""]], .table) := by
  have htrim : ∀ typed : String,
      jsTrim (lowerStr (jsDigitsOnly typed)) = jsDigitsOnly typed := by
    intro typed
    rw [lowerStr_digits _ (jsDigitsOnly_all typed),
      jsTrim_digits _ (jsDigitsOnly_all typed)]
  refine ⟨jsDigitsOnly_all, ?_, ?_, by decide, by decide⟩
  · intro rows typed h
    simp only [clientSearch, searchTable, renderState]
    simp only [htrim typed, h]
    rfl
  · intro rows typed h
    simp only [clientSearch, searchTable]
    simp only [htrim typed, if_neg h]

/-- Witness for C7: the empty query shows the placeholder; the query
"77" selects the row whose Cédula is exactly "77". -/
theorem c7_witness :
    (jsDigitsOnly "" = "" ∧
      clientSearch ([[Value.vStr "77"]] : List (List Value)) "" =
        ([], .initial)) ∧
    (jsDigitsOnly "77" ≠ "" ∧
      (clientSearch [[Value.vStr "77"]] "77").1 = [[Value.vStr "77"]]) := by
  constructor
  · exact ⟨rfl, c7_client_exact_search.2.1 [[Value.vStr "77"]] "" rfl⟩
  · refine ⟨by decide, ?_⟩
    rw [c7_client_exact_search.2.2.1 [[Value.vStr "77"]] "77" (by decide)]
    decide

end Notas

namespace Notas

/-- Every run ends in one of the four outcomes, always with exit
status 0, and with an output file only on success. -/
theorem runMain_cases (files : List (String × ReadResult)) :
    runMain files = ⟨.noFiles, none, 0⟩ ∨
    runMain files = ⟨.noValidSources, none, 0⟩ ∨
    (∃ diag, runMain files = ⟨.schemaMismatch diag, none, 0⟩) ∨
    (∃ out, runMain files = ⟨.success, some out, 0⟩) := by
  unfold runMain
  split
  · exact Or.inl rfl
  · split
    · exact Or.inr (Or.inl rfl)
    · split
      · exact Or.inr (Or.inr (Or.inl ⟨_, rfl⟩))
      · exact Or.inr (Or.inr (Or.inr ⟨_, rfl⟩))

/-- **C9 (counterexample).**  A failing run (no spreadsheet files) and
a successful run (one good file, artifact written) end with the *same*
process exit status 0 — the failure is not distinguishable by a
distinct exit status, only by the diagnostic and the absence of the
output file. -/
theorem c9_counterexample_same_exit_code :
    (runMain []).status = .noFiles ∧
    (runMain []).output = none ∧
    (runMain [("g.xlsx",
        ReadResult.ok [[.vStr "c1"], [.vStr "11"]])]).status = .success ∧
    (runMain [("g.xlsx", ReadResult.ok [[.vStr "c1"], [.vStr "11"]])]).output
      = some [[Value.vStr "11", .vStr "", .vStr "", .vStr "", .vStr "",
               .vStr ""]] ∧
    (runMain []).exitCode =
      (runMain [("g.xlsx",
        ReadResult.ok [[.vStr "c1"], [.vStr "11"]])]).exitCode := by
  exact ⟨by rfl, by rfl, by rfl, by rfl, by rfl⟩

/-- **C9 (amended).**  On zero discovered files, on all reads failing,
and on a column-count mismatch, the run stops with a diagnostic status
and produces no output file, while a successful run produces one; but
every path, failing or successful, ends with the same process exit
status 0 (plain `return` from `main`; the program never calls
`sys.exit`). -/
theorem c9_amended_run_outcomes :
    (∀ files : List (String × ReadResult), (runMain files).exitCode = 0) ∧
    ((runMain []).status = .noFiles ∧ (runMain []).output = none) ∧
    (∀ files : List (String × ReadResult), files ≠ [] →
      leerDataframes files = [] →
      (runMain files).status = .noValidSources ∧
        (runMain files).output = none) ∧
    (∀ (files : List (String × ReadResult)) (diag : List (String × Nat)),
      (runMain files).status = .schemaMismatch diag →
      (runMain files).output = none) ∧
    (∀ files : List (String × ReadResult),
      (runMain files).status = .success →
      (runMain files).output.isSome = true) := by
  refine ⟨?_, ⟨rfl, rfl⟩, ?_, ?_, ?_⟩
  · intro files
    rcases runMain_cases files with h | h | ⟨d, h⟩ | ⟨o, h⟩
    all_goals rw [h]
  · intro files h1 h2
    have hb1 : files.isEmpty = false := by
      cases files with
      | nil => exact absurd rfl h1
      | cons f fs => rfl
    unfold runMain
    rw [hb1, h2]
    exact ⟨rfl, rfl⟩
  · intro files diag h
    rcases runMain_cases files with hc | hc | ⟨d, hc⟩ | ⟨o, hc⟩
    all_goals rw [hc] at h ⊢
    all_goals simp_all
  · intro files h
    rcases runMain_cases files with hc | hc | ⟨d, hc⟩ | ⟨o, hc⟩
    all_goals rw [hc] at h ⊢
    all_goals simp_all

/-- Witness for C9 (amended): one discovered file whose read fails. -/
theorem c9_witness :
    ([("a.xlsx", ReadResult.err)] : List (String × ReadResult)) ≠ [] ∧
    leerDataframes [("a.xlsx", ReadResult.err)] = [] ∧
    (runMain [("a.xlsx", ReadResult.err)]).status = .noValidSources ∧
    (runMain [("a.xlsx", ReadResult.err)]).output = none := by
  have h := c9_amended_run_outcomes.2.2.1 [("a.xlsx", ReadResult.err)]
    (by decide) rfl
  exact ⟨by decide, rfl, h.1, h.2⟩

end Notas

namespace Notas

/-- **C4.**  Reconciliation with mixed outcomes: file "a.xlsx" fails to
read, "b.xlsx" yields 2 columns, "c.xlsx" yields 3.  The run does fail
with no merged dataset and no output, but the printed diagnostic zips
the *full* discovered-file list with the column counts of only the
*successfully read* frames: it reports ("a.xlsx", 2) and ("b.xlsx", 3)
— attributing b's count to the unreadable a, c's count to b, and
omitting c — instead of the per-source diagnostic ("b.xlsx", 2),
("c.xlsx", 3) the specification requires. -/
theorem c4_bug_mismatch_diag_labels :
    leerDataframes
        [("a.xlsx", ReadResult.err),
         ("b.xlsx", .ok [[.vStr "h1", .vStr "h2"], [.vStr "x", .vStr "y"]]),
         ("c.xlsx", .ok [[.vStr "h1", .vStr "h2", .vStr "h3"],
           [.vStr "x", .vStr "y", .vStr "z"]])] =
      [⟨[.vStr "h1", .vStr "h2"], [[.vStr "x", .vStr "y"]]⟩,
       ⟨[.vStr "h1", .vStr "h2", .vStr "h3"],
        [[.vStr "x", .vStr "y", .vStr "z"]]⟩] ∧
    runMain
        [("a.xlsx", ReadResult.err),
         ("b.xlsx", .ok [[.vStr "h1", .vStr "h2"], [.vStr "x", .vStr "y"]]),
         ("c.xlsx", .ok [[.vStr "h1", .vStr "h2", .vStr "h3"],
           [.vStr "x", .vStr "y", .vStr "z"]])] =
      ⟨.schemaMismatch [("a.xlsx", 2), ("b.xlsx", 3)], none, 0⟩ ∧
    decide (([("a.xlsx", 2), ("b.xlsx", 3)] : List (String × Nat)) =
      [("b.xlsx", 2), ("c.xlsx", 3)]) = false := by
  exact ⟨by rfl, by rfl, by decide⟩

/-- Witness for C6 (amended): two sources sharing the identical
one-column schema concatenate positionally. -/
theorem c6_witness :
    pdConcat [⟨[Value.vStr "c"], [[Value.vInt 1], [Value.vInt 2]]⟩,
        ⟨[Value.vStr "c"], [[Value.vInt 3]]⟩] =
      ⟨[Value.vStr "c"],
       [[Value.vInt 1], [Value.vInt 2], [Value.vInt 3]]⟩ :=
  (c6_amended_concat.2.2 [Value.vStr "c"]
    [⟨[Value.vStr "c"], [[Value.vInt 1], [Value.vInt 2]]⟩,
     ⟨[Value.vStr "c"], [[Value.vInt 3]]⟩]
    (by decide) (by decide) (by decide) (by decide)).trans (by rfl)

end Notas
